import Mathlib

/-!
Verification of the memory pool of src/src/microhttpd/memorypool.c
(the bidirectional bump allocator) against its natural-language
specification.

The embedding targets an LP64 platform: sizeof(void*) = 8, so the
alignment quantum ALIGN_SIZE = 2 * sizeof(void*) = 16, and size_t
arithmetic is modulo 2 ^ 64.  Pointers into the pool buffer are
modelled as byte offsets (Nat); the C NULL pointer result is the
Option.none sentinel.  The byte store of the buffer is modelled as a
total function Nat -> Nat; the pool code only ever moves or zeroes
bytes, so byte-width truncation never matters.
-/

/-- Modulus of size_t arithmetic on the LP64 target: 2 ^ 64. -/
def W : Nat := 2 ^ 64

/-- ALIGN_SIZE = 2 * sizeof(void*): the alignment quantum, 16 on LP64
(memorypool.c line 52). -/
def ALIGN_SIZE : Nat := 16

/-- ROUND_TO_ALIGN(n) = ((n)+(ALIGN_SIZE-1)) / (ALIGN_SIZE) * (ALIGN_SIZE)
(memorypool.c line 57).  The addition is size_t addition, hence taken
modulo W; the subsequent division and multiplication cannot overflow. -/
def ROUND_TO_ALIGN (n : Nat) : Nat :=
  (n + (ALIGN_SIZE - 1)) % W / ALIGN_SIZE * ALIGN_SIZE

/-- memset(m + off, v, len) on a byte store. -/
def memset (m : Nat → Nat) (off len v : Nat) : Nat → Nat :=
  fun i => if off ≤ i ∧ i < off + len then v else m i

/-- Copy len bytes from offset src to offset dst inside the byte store m,
all reads taken from the pre-state.  This is the semantics of memmove,
and of memcpy whenever the ranges do not overlap (the only defined use). -/
def memcpyAt (m : Nat → Nat) (dst src len : Nat) : Nat → Nat :=
  fun i => if dst ≤ i ∧ i < dst + len then m (src + (i - dst)) else m i

/-- struct MemoryPool (memorypool.c lines 64-91).  The field end_ embeds
the C field named end (a Lean keyword). -/
structure MemoryPool where
  memory : Nat → Nat
  size : Nat
  pos : Nat
  end_ : Nat
  is_mmap : Bool

/-- MHD_pool_create (memorypool.c lines 100-147).  Backing-store
acquisition is abstracted: the function is total and the initial byte
store is the parameter mem (malloc leaves the contents indeterminate;
the pool code itself never reads a byte it did not write, so any mem is
a faithful model).  A mapping is attempted exactly when the rounded
capacity exceeds 32 KiB, which the model records in is_mmap. -/
def MHD_pool_create (max : Nat) (mem : Nat → Nat) : MemoryPool :=
  let max2 := ROUND_TO_ALIGN max
  { memory := mem
    size := max2
    pos := 0
    end_ := max2
    is_mmap := 32 * 1024 < max2 }

/-- MHD_pool_get_free (memorypool.c lines 186-192): end - pos. -/
def MHD_pool_get_free (pool : MemoryPool) : Nat :=
  pool.end_ - pool.pos

/-- MHD_pool_allocate (memorypool.c lines 206-233).  The first component
is the returned pointer as a buffer offset (none embeds NULL).  The
overflow test pos + asize < pos is taken on the wrapped size_t sum.
When the guards pass, asize ≤ end holds, so the cursor updates below
never borrow or wrap. -/
def MHD_pool_allocate (pool : MemoryPool) (size : Nat) (from_end : Bool) :
    Option Nat × MemoryPool :=
  let asize := ROUND_TO_ALIGN size
  if 0 = asize ∧ 0 ≠ size then (none, pool)
  else if (pool.pos + asize) % W > pool.end_ ∨ (pool.pos + asize) % W < pool.pos then
    (none, pool)
  else if from_end then
    (some (pool.end_ - asize), { pool with end_ := pool.end_ - asize })
  else
    (some pool.pos, { pool with pos := (pool.pos + asize) % W })

/-- MHD_pool_reallocate (memorypool.c lines 253-306).  old is the offset
of the existing block (old_offset in the source); when old_size = 0 it is
never read, matching the source where a NULL old is then permitted.
All size_t sums that can wrap are taken modulo W. -/
def MHD_pool_reallocate (pool : MemoryPool) (old old_size new_size : Nat) :
    Option Nat × MemoryPool :=
  if (new_size + 2 * ALIGN_SIZE) % W < new_size then (none, pool)
  else if 0 ≠ old_size ∧ pool.pos = ROUND_TO_ALIGN ((old + old_size) % W) then
    -- "old" block is the last allocated block
    let new_apos := ROUND_TO_ALIGN ((old + new_size) % W)
    if new_apos > pool.end_ then (none, pool)
    else
      (some old,
       { pool with
           pos := new_apos
           memory :=
             if old_size > new_size then
               memset pool.memory (old + new_size) (old_size - new_size) 0
             else pool.memory })
  else
    -- need to allocate a new block
    let asize := ROUND_TO_ALIGN new_size
    if asize > pool.end_ - pool.pos then (none, pool)
    else
      (some pool.pos,
       { pool with
           pos := (pool.pos + asize) % W
           memory :=
             if 0 ≠ old_size then
               memset (memcpyAt pool.memory pool.pos old old_size) old old_size 0
             else pool.memory })

/-- MHD_pool_reset (memorypool.c lines 322-351).  keep is an optional
buffer offset (none embeds NULL); the source compares keep with the
buffer base, which is offset 0 here.  The returned pointer is the
possibly-updated keep. -/
def MHD_pool_reset (pool : MemoryPool) (keep : Option Nat)
    (copy_bytes new_size : Nat) : Option Nat × MemoryPool :=
  match keep with
  | none =>
    -- NULL keep: no relocation, and pos is left untouched by the source
    let m2 :=
      if pool.size > copy_bytes then
        memset pool.memory copy_bytes (pool.size - copy_bytes) 0
      else pool.memory
    (none, { pool with memory := m2, end_ := pool.size })
  | some k =>
    -- the memmove runs when keep is not already the buffer base (k ≠ 0)
    -- and copy_bytes is nonzero; afterwards keep is the buffer base
    let m1 :=
      if k ≠ 0 ∧ 0 ≠ copy_bytes then memcpyAt pool.memory 0 k copy_bytes
      else pool.memory
    let m2 :=
      if pool.size > copy_bytes then
        memset m1 copy_bytes (pool.size - copy_bytes) 0
      else m1
    (some 0,
     { pool with memory := m2, pos := ROUND_TO_ALIGN new_size, end_ := pool.size })

/-- A caller writing len bytes f 0, ..., f (len-1) into its block at
offset off.  Not a pool primitive: it models client stores into a
returned block between pool calls. -/
def writeBytes (pool : MemoryPool) (off : Nat) (f : Nat → Nat) (len : Nat) :
    MemoryPool :=
  { pool with
      memory := fun i => if off ≤ i ∧ i < off + len then f (i - off) else pool.memory i }

/-- The arena invariant of spec section 3: cursor ordering
pos ≤ end ≤ size, size below the size_t modulus (capacity is a size_t),
and all three cursors multiples of the alignment quantum. -/
def Invariant (p : MemoryPool) : Prop :=
  p.pos ≤ p.end_ ∧ p.end_ ≤ p.size ∧ p.size < W ∧
  ALIGN_SIZE ∣ p.pos ∧ ALIGN_SIZE ∣ p.end_ ∧ ALIGN_SIZE ∣ p.size

instance (p : MemoryPool) : Decidable (Invariant p) := by
  unfold Invariant
  infer_instance

/-- The size_t modulus as a numeral, for arithmetic automation. -/
theorem W_eq : W = 18446744073709551616 := by norm_num [W]

/-- ROUND_TO_ALIGN always produces a value below the size_t modulus. -/
theorem round_lt_W (n : Nat) : ROUND_TO_ALIGN n < W := by
  have h : (n + (ALIGN_SIZE - 1)) % W < W := Nat.mod_lt _ (by norm_num [W])
  unfold ROUND_TO_ALIGN at *
  simp only [W_eq, ALIGN_SIZE] at *
  omega

/-- ROUND_TO_ALIGN always produces a multiple of the alignment quantum. -/
theorem align_dvd_round (n : Nat) : ALIGN_SIZE ∣ ROUND_TO_ALIGN n := by
  unfold ROUND_TO_ALIGN
  exact dvd_mul_left _ _

/-- A freshly created 1024-byte pool with zeroed backing store, the pool
of the end-to-end scenarios of spec section 8. -/
def pool1024 : MemoryPool := MHD_pool_create 1024 (fun _ => 0)

/-- The scenario pool after one head-end allocation of one byte:
head = 16. -/
def poolHead16 : MemoryPool := (MHD_pool_allocate pool1024 1 false).2

/-- Claim C1: the code does not satisfy it.  On a pool with head = 16,
MHD_pool_reset with a NULL keep leaves head at 16 (the source only
assigns pos when keep is non-NULL), and a second identical reset leaves
it at 16 as well, while the claim demands head = 0 after the first
call regardless of the prior head. -/
theorem reset_null_keep_leaves_head_unchanged :
    poolHead16.pos = 16 ∧
    (MHD_pool_reset poolHead16 none 0 0).2.pos = 16 ∧
    (MHD_pool_reset poolHead16 none 0 0).2.end_ = 1024 ∧
    (MHD_pool_reset (MHD_pool_reset poolHead16 none 0 0).2 none 0 0).2.pos = 16 := by
  decide

/-- The scenario pool of spec scenario 6: allocate(100, false) on the
fresh 1024-byte pool, then the caller writes the ten bytes of
"abcdefghij" (byte values 97..106) at the returned block (offset 0). -/
def poolScenario6 : MemoryPool :=
  writeBytes (MHD_pool_allocate pool1024 100 false).2 0 (fun i => 97 + i) 10

/-- Claim C7, counterexample: reset(p, 10, 50) on the scenario-6 pool
sets head to ROUND_TO_ALIGN 50 = 64, not 48 as the claim states. -/
theorem reset_scenario6_head_is_64_not_48 :
    (MHD_pool_reset poolScenario6 (some 0) 10 50).2.pos = 64 ∧
    ¬ (MHD_pool_reset poolScenario6 (some 0) 10 50).2.pos = 48 := by
  decide

/-- Claim C7 as amended: reset(p, 10, 50) on the scenario-6 pool returns
the buffer (offset 0), preserves the ten written bytes at offsets
0..9, sets head = ROUND_TO_ALIGN 50 = 64 (the claim said 48) and
tail = 1024. -/
theorem reset_scenario6_behaviour :
    (MHD_pool_reset poolScenario6 (some 0) 10 50).1 = some 0 ∧
    (∀ i, i < 10 → (MHD_pool_reset poolScenario6 (some 0) 10 50).2.memory i = 97 + i) ∧
    (MHD_pool_reset poolScenario6 (some 0) 10 50).2.pos = 64 ∧
    (MHD_pool_reset poolScenario6 (some 0) 10 50).2.end_ = 1024 := by
  decide

/-- The scenario pool filled to capacity: allocate(1024, false) on the
fresh 1024-byte pool leaves head = tail = 1024. -/
def poolFilled : MemoryPool := (MHD_pool_allocate pool1024 1024 false).2

/-- Claim C3: whenever allocate or reallocate returns the NULL sentinel
the pool state (cursors and byte store) is returned exactly as it was,
and in the fill scenario allocate(1024, false) succeeds on the fresh
1024-byte pool after which allocate(1, false) and allocate(1, true)
both fail and change nothing. -/
theorem failure_leaves_pool_unchanged :
    (∀ pool size from_end, (MHD_pool_allocate pool size from_end).1 = none →
      (MHD_pool_allocate pool size from_end).2 = pool) ∧
    (∀ pool old old_size new_size,
      (MHD_pool_reallocate pool old old_size new_size).1 = none →
      (MHD_pool_reallocate pool old old_size new_size).2 = pool) ∧
    ((MHD_pool_allocate pool1024 1024 false).1 = some 0 ∧
     (MHD_pool_allocate poolFilled 1 false).1 = none ∧
     (MHD_pool_allocate poolFilled 1 false).2 = poolFilled ∧
     (MHD_pool_allocate poolFilled 1 true).1 = none ∧
     (MHD_pool_allocate poolFilled 1 true).2 = poolFilled) := by
  refine ⟨?_, ?_, by decide, by decide, rfl, by decide, rfl⟩
  · intro pool size from_end
    simp only [MHD_pool_allocate]
    split
    · intro _
      rfl
    · split
      · intro _
        rfl
      · split <;> intro hcontra <;> simp at hcontra
  · intro pool old old_size new_size
    simp only [MHD_pool_reallocate]
    split
    · intro _
      rfl
    · split
      · split
        · intro _
          rfl
        · intro hcontra
          simp at hcontra
      · split
        · intro _
          rfl
        · intro hcontra
          simp at hcontra

/-- Witness for claim C3: the two generic failure conjuncts applied at
concrete failing calls on the filled pool. -/
theorem failure_leaves_pool_unchanged_witness :
    (MHD_pool_allocate poolFilled 1 false).2 = poolFilled ∧
    (MHD_pool_reallocate poolFilled 0 16 2048).2 = poolFilled :=
  ⟨failure_leaves_pool_unchanged.1 poolFilled 1 false (by decide),
   failure_leaves_pool_unchanged.2.1 poolFilled 0 16 2048 (by decide)⟩

/-- Claim C8: on any pool satisfying the invariant, whenever the rounded
size fits the free region tail - head (and the rounding does not
overflow, which per spec section 4.1 already fails the request),
allocate succeeds; with from_end = false it returns offset head and
advances head by asize, with from_end = true it lowers tail by asize
and returns the new tail; the byte store is untouched.  The scenario
conjuncts instantiate this on the fresh 1024-byte pool:
allocate(100, false) returns offset 0 with head = 112 and
free_bytes = 912, and allocate(32, true) returns offset 992 with
tail = 992 and free_bytes = 992. -/
theorem allocate_success (pool : MemoryPool) (size : Nat) (from_end : Bool)
    (h : Invariant pool)
    (hround : size = 0 ∨ 0 ≠ ROUND_TO_ALIGN size)
    (hfit : ROUND_TO_ALIGN size ≤ pool.end_ - pool.pos) :
    ((MHD_pool_allocate pool size from_end).1 ≠ none ∧
     (from_end = false →
       (MHD_pool_allocate pool size from_end).1 = some pool.pos ∧
       (MHD_pool_allocate pool size from_end).2.pos = pool.pos + ROUND_TO_ALIGN size ∧
       (MHD_pool_allocate pool size from_end).2.end_ = pool.end_ ∧
       (MHD_pool_allocate pool size from_end).2.memory = pool.memory) ∧
     (from_end = true →
       (MHD_pool_allocate pool size from_end).1 = some (pool.end_ - ROUND_TO_ALIGN size) ∧
       (MHD_pool_allocate pool size from_end).2.end_ = pool.end_ - ROUND_TO_ALIGN size ∧
       (MHD_pool_allocate pool size from_end).2.pos = pool.pos ∧
       (MHD_pool_allocate pool size from_end).2.memory = pool.memory)) ∧
    ((MHD_pool_allocate pool1024 100 false).1 = some 0 ∧
     (MHD_pool_allocate pool1024 100 false).2.pos = 112 ∧
     MHD_pool_get_free (MHD_pool_allocate pool1024 100 false).2 = 912 ∧
     (MHD_pool_allocate pool1024 32 true).1 = some 992 ∧
     (MHD_pool_allocate pool1024 32 true).2.end_ = 992 ∧
     MHD_pool_get_free (MHD_pool_allocate pool1024 32 true).2 = 992) := by
  refine ⟨?_, by decide, by decide, by decide, by decide, by decide, by decide⟩
  obtain ⟨hpe, hes, hsW, _, _, _⟩ := h
  set a := ROUND_TO_ALIGN size with ha
  have hmod : (pool.pos + a) % W = pool.pos + a := by
    apply Nat.mod_eq_of_lt
    simp only [W_eq] at *
    omega
  have hg1 : ¬(0 = a ∧ 0 ≠ size) := by omega
  have hg2 : ¬((pool.pos + a) % W > pool.end_ ∨ (pool.pos + a) % W < pool.pos) := by
    rw [hmod]
    omega
  simp only [MHD_pool_allocate, ← ha]
  rw [if_neg hg1, if_neg hg2]
  cases from_end with
  | false =>
    refine ⟨by simp, fun _ => ⟨rfl, ?_, rfl, rfl⟩, fun hcontra => by simp at hcontra⟩
    simpa using hmod
  | true =>
    exact ⟨by simp, fun hcontra => by simp at hcontra, fun _ => ⟨rfl, rfl, rfl, rfl⟩⟩

/-- Witness for claim C8: the generic success conjunct applied at the
scenario input allocate(100, false) on the fresh 1024-byte pool. -/
theorem allocate_success_witness :
    (MHD_pool_allocate pool1024 100 false).1 ≠ none ∧
    (MHD_pool_allocate pool1024 100 false).2.pos = pool1024.pos + ROUND_TO_ALIGN 100 :=
  ⟨(allocate_success pool1024 100 false (by decide) (Or.inr (by decide)) (by decide)).1.1,
   ((allocate_success pool1024 100 false (by decide) (Or.inr (by decide))
      (by decide)).1.2.1 rfl).2.1⟩

/-- The pool of the tail-persistence scenario: on the fresh 1024-byte
pool, a 16-byte tail-end block is allocated (at offsets 1008..1023) and
the caller writes the nonzero bytes 1, ..., 16 into it. -/
def poolTail : MemoryPool :=
  writeBytes (MHD_pool_allocate pool1024 16 true).2 1008 (fun j => j + 1) 16

/-- Head-end activity on poolTail: allocate(900, false) (block at 0,
head 912), allocate(16, false) (block at 912, head 928). -/
def poolTailHeads : MemoryPool :=
  (MHD_pool_allocate (MHD_pool_allocate poolTail 900 false).2 16 false).2

/-- MHD_pool_create establishes the arena invariant. -/
theorem invariant_create (max : Nat) (mem : Nat → Nat) :
    Invariant (MHD_pool_create max mem) := by
  have h1 := round_lt_W max
  have h2 := align_dvd_round max
  unfold MHD_pool_create
  unfold Invariant
  exact ⟨Nat.zero_le _, le_refl _, h1, ⟨0, rfl⟩, h2, h2⟩

/-- MHD_pool_allocate preserves the arena invariant (for any argument
values, whether it succeeds or fails). -/
theorem invariant_allocate (pool : MemoryPool) (size : Nat) (from_end : Bool)
    (h : Invariant pool) : Invariant (MHD_pool_allocate pool size from_end).2 := by
  have haW := round_lt_W size
  have hdvd := align_dvd_round size
  unfold Invariant at h ⊢
  simp only [MHD_pool_allocate]
  simp only [W_eq, ALIGN_SIZE] at *
  split
  · exact h
  · split
    · exact h
    · split <;> dsimp only <;> omega

/-- MHD_pool_reallocate preserves the arena invariant (for any argument
values, whether it succeeds or fails). -/
theorem invariant_reallocate (pool : MemoryPool) (old old_size new_size : Nat)
    (h : Invariant pool) :
    Invariant (MHD_pool_reallocate pool old old_size new_size).2 := by
  have h1 := round_lt_W new_size
  have h2 := align_dvd_round new_size
  have h3 := round_lt_W ((old + new_size) % W)
  have h4 := align_dvd_round ((old + new_size) % W)
  unfold Invariant at h ⊢
  simp only [MHD_pool_reallocate]
  simp only [W_eq, ALIGN_SIZE] at *
  split
  · exact h
  · split
    · split
      · exact h
      · dsimp only
        omega
    · split
      · exact h
      · dsimp only
        omega

/-- MHD_pool_reset preserves the arena invariant provided the rounded
new_size fits the capacity when keep is non-NULL (the source performs
no check of its own, which is what the counterexample to the unrestricted
statement exploits). -/
theorem invariant_reset (pool : MemoryPool) (keep : Option Nat)
    (copy_bytes new_size : Nat) (h : Invariant pool)
    (hns : keep = none ∨ ROUND_TO_ALIGN new_size ≤ pool.size) :
    Invariant (MHD_pool_reset pool keep copy_bytes new_size).2 := by
  have h2 := align_dvd_round new_size
  unfold Invariant at h ⊢
  cases keep with
  | none =>
    simp only [MHD_pool_reset, ALIGN_SIZE] at *
    omega
  | some k =>
    rcases hns with hns | hns
    · exact absurd hns (by simp)
    · simp only [MHD_pool_reset, ALIGN_SIZE] at *
      omega

/-- Claim C2, counterexample: MHD_pool_reset does not validate new_size,
so resetting a fresh 1024-byte pool while keeping the block at offset 0
with new_size = 2048 returns normally yet leaves head = 2048 above
tail = 1024, violating head ≤ tail. -/
theorem reset_overlong_new_size_breaks_invariant :
    Invariant pool1024 ∧
    ¬ Invariant (MHD_pool_reset pool1024 (some 0) 0 2048).2 := by
  decide

/-- Claim C2 as amended: after create, allocate, reallocate and
free_bytes the arena invariant 0 ≤ head ≤ tail ≤ capacity with head,
tail and capacity multiples of ALIGN_SIZE is preserved unconditionally,
and after reset it is preserved provided keep is NULL or the rounded
new_size does not exceed the capacity (the unrestricted claim fails,
see the counterexample). -/
theorem invariant_after_public_operations :
    (∀ max mem, Invariant (MHD_pool_create max mem)) ∧
    (∀ pool size from_end, Invariant pool →
      Invariant (MHD_pool_allocate pool size from_end).2) ∧
    (∀ pool old old_size new_size, Invariant pool →
      Invariant (MHD_pool_reallocate pool old old_size new_size).2) ∧
    (∀ pool : MemoryPool, MHD_pool_get_free pool = pool.end_ - pool.pos) ∧
    (∀ pool keep copy_bytes new_size, Invariant pool →
      (keep = none ∨ ROUND_TO_ALIGN new_size ≤ pool.size) →
      Invariant (MHD_pool_reset pool keep copy_bytes new_size).2) :=
  ⟨invariant_create, invariant_allocate, invariant_reallocate,
   fun _ => rfl, invariant_reset⟩

/-- Witness for the amended claim C2 at concrete inputs. -/
theorem invariant_after_public_operations_witness :
    Invariant (MHD_pool_allocate pool1024 100 false).2 ∧
    Invariant (MHD_pool_reset pool1024 (some 0) 10 50).2 :=
  ⟨invariant_after_public_operations.2.1 pool1024 100 false (by decide),
   invariant_after_public_operations.2.2.2.2 pool1024 (some 0) 10 50
     (by decide) (Or.inr (by decide))⟩

/-- Claim C6: for any pool satisfying the invariant and any non-NULL
keep offset k with k + copy_bytes ≤ capacity, reset(keep, copy_bytes,
new_size) returns the buffer base (offset 0), the buffer bytes
0 ≤ i < copy_bytes afterwards equal the pre-reset bytes at k + i,
tail = capacity, head = round(new_size), and the buffer bytes from
copy_bytes up to capacity are zero. -/
theorem reset_keep_behaviour (pool : MemoryPool) (k copy_bytes new_size : Nat)
    (h : Invariant pool) (hk : k + copy_bytes ≤ pool.size) :
    (MHD_pool_reset pool (some k) copy_bytes new_size).1 = some 0 ∧
    (∀ i, i < copy_bytes →
      (MHD_pool_reset pool (some k) copy_bytes new_size).2.memory i =
        pool.memory (k + i)) ∧
    (MHD_pool_reset pool (some k) copy_bytes new_size).2.end_ = pool.size ∧
    (MHD_pool_reset pool (some k) copy_bytes new_size).2.pos =
      ROUND_TO_ALIGN new_size ∧
    (∀ i, copy_bytes ≤ i → i < pool.size →
      (MHD_pool_reset pool (some k) copy_bytes new_size).2.memory i = 0) := by
  refine ⟨rfl, ?_, rfl, rfl, ?_⟩
  · intro i hi
    show (if pool.size > copy_bytes then
        memset (if k ≠ 0 ∧ 0 ≠ copy_bytes then memcpyAt pool.memory 0 k copy_bytes
          else pool.memory) copy_bytes (pool.size - copy_bytes) 0
      else (if k ≠ 0 ∧ 0 ≠ copy_bytes then memcpyAt pool.memory 0 k copy_bytes
          else pool.memory)) i = pool.memory (k + i)
    have hlow : (if k ≠ 0 ∧ 0 ≠ copy_bytes then memcpyAt pool.memory 0 k copy_bytes
        else pool.memory) i = pool.memory (k + i) := by
      split
      · simp only [memcpyAt]
        rw [if_pos (by omega)]
        simp
      · rename_i hcond
        have hk0 : k = 0 := by omega
        rw [hk0, Nat.zero_add]
    split
    · simp only [memset]
      rw [if_neg (by omega)]
      exact hlow
    · exact hlow
  · intro i h1 h2
    show (if pool.size > copy_bytes then
        memset (if k ≠ 0 ∧ 0 ≠ copy_bytes then memcpyAt pool.memory 0 k copy_bytes
          else pool.memory) copy_bytes (pool.size - copy_bytes) 0
      else (if k ≠ 0 ∧ 0 ≠ copy_bytes then memcpyAt pool.memory 0 k copy_bytes
          else pool.memory)) i = 0
    split
    · simp only [memset]
      rw [if_pos (by omega)]
    · omega

/-- Witness for claim C6: on the fresh 1024-byte pool with keep at
offset 16 and copy_bytes = 8, the reset returns the buffer base and
sets head to round(50). -/
theorem reset_keep_behaviour_witness :
    (MHD_pool_reset pool1024 (some 16) 8 50).1 = some 0 ∧
    (MHD_pool_reset pool1024 (some 16) 8 50).2.pos = ROUND_TO_ALIGN 50 :=
  ⟨(reset_keep_behaviour pool1024 16 8 50 (by decide) (by decide)).1,
   (reset_keep_behaviour pool1024 16 8 50 (by decide) (by decide)).2.2.2.1⟩

/-- The scenario pool with two head-end blocks: a 32-byte block at
offset 0 and a 16-byte block at offset 32; head = 48 so the second
block is the last one. -/
def poolTwoBlocks : MemoryPool :=
  (MHD_pool_allocate (MHD_pool_allocate pool1024 32 false).2 16 false).2

/-- Claim C4, counterexample: with old = 32, old_size = 16 (the last
block, head = 48 = round(32 + 16)) and new_size = 2^64 - 32, the
wrapped round(old_offset + new_size) is round(0) = 0 ≤ tail, so the
claim predicts success, but the source fails on its overflow guard
new_size + 2 * ALIGN_SIZE wrapping. -/
theorem reallocate_fastpath_guard_counterexample :
    poolTwoBlocks.pos = ROUND_TO_ALIGN ((32 + 16) % W) ∧
    ROUND_TO_ALIGN ((32 + (18446744073709551584 : Nat)) % W) ≤ poolTwoBlocks.end_ ∧
    (MHD_pool_reallocate poolTwoBlocks 32 16 18446744073709551584).1 = none := by
  decide

/-- Claim C4 as amended: provided new_size + 2 * ALIGN_SIZE does not
wrap (the overflow guard the claim omits), in-place reallocation of the
last head-end block fails exactly when round(old_offset + new_size) >
tail, and otherwise returns old itself, sets head to
round(old_offset + new_size), zeroes the shrunk-away bytes
old + new_size ≤ i < old + old_size, and leaves every other byte and
tail unchanged. -/
theorem reallocate_last_block (pool : MemoryPool) (old old_size new_size : Nat)
    (h : Invariant pool)
    (hos : 0 ≠ old_size)
    (hlast : pool.pos = ROUND_TO_ALIGN ((old + old_size) % W))
    (hguard : new_size + 2 * ALIGN_SIZE < W) :
    ((MHD_pool_reallocate pool old old_size new_size).1 = none ↔
      ROUND_TO_ALIGN ((old + new_size) % W) > pool.end_) ∧
    (ROUND_TO_ALIGN ((old + new_size) % W) ≤ pool.end_ →
      (MHD_pool_reallocate pool old old_size new_size).1 = some old ∧
      (MHD_pool_reallocate pool old old_size new_size).2.pos =
        ROUND_TO_ALIGN ((old + new_size) % W) ∧
      (MHD_pool_reallocate pool old old_size new_size).2.end_ = pool.end_ ∧
      (∀ i, old + new_size ≤ i → i < old + old_size →
        (MHD_pool_reallocate pool old old_size new_size).2.memory i = 0) ∧
      (∀ i, i < old + new_size →
        (MHD_pool_reallocate pool old old_size new_size).2.memory i = pool.memory i) ∧
      (∀ i, old + old_size ≤ i →
        (MHD_pool_reallocate pool old old_size new_size).2.memory i = pool.memory i)) := by
  have hg : ¬((new_size + 2 * ALIGN_SIZE) % W < new_size) := by
    rw [Nat.mod_eq_of_lt hguard]
    simp only [ALIGN_SIZE]
    omega
  simp only [MHD_pool_reallocate]
  rw [if_neg hg, if_pos ⟨hos, hlast⟩]
  split
  · rename_i hgt
    exact ⟨iff_of_true rfl hgt, fun hle => absurd hgt (by omega)⟩
  · rename_i hgt
    refine ⟨iff_of_false (by simp) hgt, fun _ => ⟨rfl, rfl, rfl, ?_, ?_, ?_⟩⟩
    · intro i hi1 hi2
      have hshrink : old_size > new_size := by omega
      show (if old_size > new_size then
          memset pool.memory (old + new_size) (old_size - new_size) 0
        else pool.memory) i = 0
      rw [if_pos hshrink]
      simp only [memset]
      rw [if_pos (by omega)]
    · intro i hi
      show (if old_size > new_size then
          memset pool.memory (old + new_size) (old_size - new_size) 0
        else pool.memory) i = pool.memory i
      split
      · simp only [memset]
        rw [if_neg (by omega)]
      · rfl
    · intro i hi
      show (if old_size > new_size then
          memset pool.memory (old + new_size) (old_size - new_size) 0
        else pool.memory) i = pool.memory i
      split
      · simp only [memset]
        rw [if_neg (by omega)]
      · rfl

/-- The scenario pool with one 100-byte head-end block at offset 0,
head = 112. -/
def poolP100 : MemoryPool := (MHD_pool_allocate pool1024 100 false).2

/-- Witness for the amended claim C4: reallocate(p, 100, 200) on the
pool with the single 100-byte block p at offset 0 takes the fast path,
returns p and sets head = round(200) = 208. -/
theorem reallocate_last_block_witness :
    (MHD_pool_reallocate poolP100 0 100 200).1 = some 0 ∧
    (MHD_pool_reallocate poolP100 0 100 200).2.pos = 208 := by
  have t := (reallocate_last_block poolP100 0 100 200 (by decide) (by decide)
    (by decide) (by decide)).2 (by decide)
  refine ⟨t.1, ?_⟩
  rw [t.2.1]
  decide

/-- The scenario pool with a 100-byte block p at offset 0 and a 50-byte
block q at offset 112; head = 176, so p is not the last block. -/
def poolPQ : MemoryPool :=
  (MHD_pool_allocate (MHD_pool_allocate pool1024 100 false).2 50 false).2

/-- Claim C5: reallocating a head-end block that is not the last one
(old + old_size ≤ head and head ≠ round(old_offset + old_size))
allocates a fresh head-end block of round(new_size) bytes, failing
exactly when round(new_size) > tail - head (with rounding overflow
failing the request per the spec alignment policy, section 4.1); on
success it returns the old head (a fresh address different from old),
advances head by round(new_size), copies the old_size bytes of old
into the new block and zeroes the old block.  The size bound
capacity + 2 * ALIGN_SIZE < 2^64 holds for every realizable pool: the
buffer and the pool handle must both fit in the address space. -/
theorem reallocate_slow_path (pool : MemoryPool) (old old_size new_size : Nat)
    (h : Invariant pool)
    (hbound : pool.size + 2 * ALIGN_SIZE < W)
    (hnsize : new_size < W)
    (hos : 0 ≠ old_size)
    (hin : old + old_size ≤ pool.pos)
    (hnotlast : pool.pos ≠ ROUND_TO_ALIGN ((old + old_size) % W)) :
    ((MHD_pool_reallocate pool old old_size new_size).1 = none ↔
      (ROUND_TO_ALIGN new_size > pool.end_ - pool.pos ∨
       (ROUND_TO_ALIGN new_size = 0 ∧ new_size ≠ 0))) ∧
    (ROUND_TO_ALIGN new_size ≤ pool.end_ - pool.pos →
      (new_size = 0 ∨ ROUND_TO_ALIGN new_size ≠ 0) →
      (MHD_pool_reallocate pool old old_size new_size).1 = some pool.pos ∧
      pool.pos ≠ old ∧
      (MHD_pool_reallocate pool old old_size new_size).2.pos =
        pool.pos + ROUND_TO_ALIGN new_size ∧
      (MHD_pool_reallocate pool old old_size new_size).2.end_ = pool.end_ ∧
      (∀ i, i < old_size →
        (MHD_pool_reallocate pool old old_size new_size).2.memory (pool.pos + i) =
          pool.memory (old + i)) ∧
      (∀ i, i < old_size →
        (MHD_pool_reallocate pool old old_size new_size).2.memory (old + i) = 0)) := by
  obtain ⟨hpe, hes, hsW, _, _, _⟩ := h
  have hfast : ¬(0 ≠ old_size ∧ pool.pos = ROUND_TO_ALIGN ((old + old_size) % W)) :=
    fun hc => hnotlast hc.2
  have haval : ROUND_TO_ALIGN new_size =
      (new_size + 15) % 18446744073709551616 / 16 * 16 := by
    unfold ROUND_TO_ALIGN
    simp only [W_eq, ALIGN_SIZE]
  simp only [MHD_pool_reallocate]
  rw [if_neg hfast]
  simp only [W_eq, ALIGN_SIZE] at *
  split
  · rename_i hgw
    constructor
    · refine iff_of_true rfl ?_
      omega
    · intro hle hnz
      exfalso
      omega
  · rename_i hgw
    split
    · rename_i hgt
      constructor
      · exact iff_of_true rfl (Or.inl hgt)
      · intro hle _
        exfalso
        omega
    · rename_i hgt
      refine ⟨iff_of_false (by simp) ?_, fun _ _ => ⟨rfl, by omega, ?_, rfl, ?_, ?_⟩⟩
      · omega
      · show (pool.pos + ROUND_TO_ALIGN new_size) % 18446744073709551616 =
          pool.pos + ROUND_TO_ALIGN new_size
        apply Nat.mod_eq_of_lt
        omega
      · intro i hi
        dsimp only
        simp only [memset, memcpyAt]
        rw [if_neg (by omega), if_pos (by omega)]
        congr 1
        omega
      · intro i hi
        dsimp only
        simp only [memset]
        rw [if_pos (by omega)]

/-- Witness for claim C5: the scenario reallocate(p, 100, 200) on the
pool holding p (100 bytes at offset 0) and q (50 bytes at offset 112):
the slow path returns the fresh block at the old head 176 ≠ 0 and
advances head by round(200) = 208. -/
theorem reallocate_slow_path_witness :
    (MHD_pool_reallocate poolPQ 0 100 200).1 = some poolPQ.pos ∧
    poolPQ.pos ≠ 0 ∧
    (MHD_pool_reallocate poolPQ 0 100 200).2.pos = poolPQ.pos + ROUND_TO_ALIGN 200 := by
  have t := (reallocate_slow_path poolPQ 0 100 200 (by decide) (by decide)
    (by decide) (by decide) (by decide) (by decide)).2 (by decide) (Or.inr (by decide))
  exact ⟨t.1, t.2.1, t.2.2.1⟩

/-- Claim C10: with old_size = 0, MHD_pool_reallocate returns the very
same result and final pool state as MHD_pool_allocate(new_size, false),
for every pool satisfying the invariant, every old offset and every
size_t new_size; in particular it copies and zeroes nothing.  The size
bound capacity + 2 * ALIGN_SIZE < 2^64 holds for every realizable pool
(buffer and handle must fit in the address space). -/
theorem reallocate_zero_old_size_is_allocate (pool : MemoryPool) (old new_size : Nat)
    (h : Invariant pool)
    (hbound : pool.size + 2 * ALIGN_SIZE < W)
    (hnsize : new_size < W) :
    MHD_pool_reallocate pool old 0 new_size = MHD_pool_allocate pool new_size false := by
  obtain ⟨hpe, hes, hsW, _, _, _⟩ := h
  have haval : ROUND_TO_ALIGN new_size =
      (new_size + 15) % 18446744073709551616 / 16 * 16 := by
    unfold ROUND_TO_ALIGN
    simp only [W_eq, ALIGN_SIZE]
  simp only [MHD_pool_reallocate, MHD_pool_allocate]
  set a := ROUND_TO_ALIGN new_size with ha
  simp only [W_eq, ALIGN_SIZE] at *
  by_cases hg : (new_size + 2 * 16) % 18446744073709551616 < new_size
  · rw [if_pos hg]
    by_cases h1 : 0 = a ∧ 0 ≠ new_size
    · rw [if_pos h1]
    · rw [if_neg h1, if_pos (by omega)]
  · rw [if_neg hg, if_neg (fun hc : (0 : Nat) ≠ 0 ∧ _ => hc.1 rfl)]
    by_cases hf : a > pool.end_ - pool.pos
    · rw [if_pos hf, if_neg (by omega), if_pos (by omega)]
    · rw [if_neg hf, if_neg (by omega), if_neg (by omega), if_neg Bool.false_ne_true,
        if_neg (by omega)]

/-- Witness for claim C10 at a concrete input: on the fresh 1024-byte
pool, reallocate(old = 5, 0, 100) coincides with allocate(100, false). -/
theorem reallocate_zero_old_size_is_allocate_witness :
    MHD_pool_reallocate pool1024 5 0 100 = MHD_pool_allocate pool1024 100 false :=
  reallocate_zero_old_size_is_allocate pool1024 5 100 (by decide) (by decide) (by decide)

/-- Claim C9: the code does not satisfy it.  Shrinking the non-last
900-byte head-end block with reallocate(0, 900, 10) succeeds (slow
path), but its memcpy copies all 900 old bytes into the fresh 16-byte
block at offset 928, overrunning the free region and rewriting the
tail-end block: byte 1008 of the tail block was 1 before the call and
0 afterwards.  Every call in the sequence succeeds, yet the tail-end
block is not bitwise unchanged. -/
theorem tail_block_clobbered_by_shrinking_reallocate :
    poolTailHeads.memory 1008 = 1 ∧
    (MHD_pool_reallocate poolTailHeads 0 900 10).1 = some 928 ∧
    (MHD_pool_reallocate poolTailHeads 0 900 10).2.memory 1008 = 0 := by
  decide
